import Mathlib

/-!
Verification of the torchchat model-builder and KV-cache engine
(`torchchat/model.py`) against its natural-language specification.

The Python source is shallowly embedded: tensors are index functions
over rationals together with explicitly tracked sizes, stateful modules
are explicit state records with state-passing functions, Python
exceptions (`ValueError`, `AssertionError`, shape errors) become an
`Except` error type, and float arithmetic is idealized as exact rational
arithmetic (`torch.pi` is embedded as the exact value of the IEEE-754
double that Python uses).
-/

/-- Errors raised by the embedded code.  `valueError` carries the Python
message; `assertionError` models a failing `assert`; `shapeError` models
a tensor-shape mismatch raised inside a torch operator; `stateError`
models use-before-setup failures. -/
inductive ModelError
  | valueError (msg : String)
  | assertionError
  | shapeError
  | stateError
deriving DecidableEq, Repr

/-- Element type of the embedded tensors: float values idealized as
exact rationals. -/
abbrev Val := ℚ

/- ---------------------------------------------------------------------
KVCache (model.py lines 410-434)
--------------------------------------------------------------------- -/

/-- A 4-dimensional tensor shaped `[batch, heads, seq, headDim]`:
contents as a total index function plus the sequence length, which is
the only size the embedded code inspects (`k_val.shape[2]`). -/
structure Tensor4 where
  seqLen : ℕ
  data : ℕ → ℕ → ℕ → ℕ → Val

/-- The key/value cache of one `Attention` instance: two fixed-size
zero-filled buffers shaped `[max_batch_size, n_heads, max_seq_length,
head_dim]` (`KVCache.__init__`). -/
structure KVCache where
  maxBatchSize : ℕ
  maxSeqLength : ℕ
  nHeads : ℕ
  headDim : ℕ
  kCache : ℕ → ℕ → ℕ → ℕ → Val
  vCache : ℕ → ℕ → ℕ → ℕ → Val

/-- `KVCache.__init__`: both buffers zero-filled (`torch.zeros`). -/
def KVCache.init (maxBatchSize maxSeqLength nHeads headDim : ℕ) : KVCache :=
  { maxBatchSize := maxBatchSize
  , maxSeqLength := maxSeqLength
  , nHeads := nHeads
  , headDim := headDim
  , kCache := fun _ _ _ _ => 0
  , vCache := fun _ _ _ _ => 0 }

/-- Position of the first occurrence of `s` in a list, if any. -/
def findIdxOpt (s : ℕ) : List ℕ → Option ℕ
  | [] => none
  | p :: ps => if p = s then some 0 else (findIdxOpt s ps).map (· + 1)

/-- Semantics of `torch.ops.aten.index_put_(cache, [None, None, input_pos], val)`:
for every batch index `b`, head `h`, row `i < len(input_pos)` and column
`d`, the entry `cache[b, h, input_pos[i], d]` becomes `val[b, h, i, d]`;
all other entries are unchanged.  (When `input_pos` has duplicates the
torch result is unspecified; this embedding takes the first occurrence,
and the theorems only consider duplicate-free position lists.) -/
def indexPutSeq (cache : ℕ → ℕ → ℕ → ℕ → Val) (inputPos : List ℕ)
    (val : ℕ → ℕ → ℕ → ℕ → Val) : ℕ → ℕ → ℕ → ℕ → Val :=
  fun b h s d =>
    match findIdxOpt s inputPos with
    | some i => val b h i d
    | none => cache b h s d

/-- `KVCache.update(input_pos, k_val, v_val)` (model.py lines 427-434):
asserts `input_pos.shape[0] == k_val.shape[2]`, writes `k_val`/`v_val`
into the buffers at the absolute positions `input_pos` along the
sequence axis, and returns the full mutated buffers (`index_put_`
returns the whole tensor it mutated, not the written slice). -/
def KVCache.update (c : KVCache) (inputPos : List ℕ) (kVal vVal : Tensor4) :
    Except ModelError KVCache :=
  if inputPos.length = kVal.seqLen then
    .ok { c with
          kCache := indexPutSeq c.kCache inputPos kVal.data
        , vCache := indexPutSeq c.vCache inputPos vVal.data }
  else .error .assertionError

/- ---------------------------------------------------------------------
identity fusion (model.py lines 53-56)
--------------------------------------------------------------------- -/

/-- Python keyword arguments: an association list from argument name to
value (names are distinct in Python, but nothing here depends on that). -/
abbrev Kwargs (α : Type) := List (String × α)

/-- The `identity` fusion function: `if len(kwargs) != 1: raise
ValueError("Only one argument is expected")`, otherwise
`return list(kwargs.values())[0]`. -/
def identity {α : Type} (kwargs : Kwargs α) : Except ModelError α :=
  if kwargs.length = 1 then
    match kwargs with
    | kv :: _ => .ok kv.2
    | [] => .error .assertionError
  else .error (.valueError "Only one argument is expected")

/- ---------------------------------------------------------------------
ModelType and ModelRecipe (model.py lines 168-249)
--------------------------------------------------------------------- -/

/-- The four declared model types (`class ModelType(Enum)`). -/
inductive ModelType
  | textOnly
  | llama3_1
  | flamingo
  | llava
deriving DecidableEq, Repr

/-- An argument handed to `ModelRecipe.get_recipe`.  Python is
dynamically typed, so the `match` statement may be given any value; the
`unknown` constructor stands for any value that is not one of the four
`ModelType` members and is caught by the wildcard case. -/
inductive ModelTypeArg
  | known (t : ModelType)
  | unknown (tag : String)
deriving DecidableEq, Repr

/-- Tags naming the builder callables referenced by the recipes
(`Transformer`, `llama3_1_builder`, `flamingo_vision_encoder`,
`flamingo_decoder`, `clip_vision_encoder`).  The builders themselves
live in this file (for `Transformer`) or in external libraries. -/
inductive ModuleBuilderTag
  | transformerBuilder
  | llama31Builder
  | flamingoVisionEncoderBuilder
  | flamingoDecoderBuilder
  | clipVisionEncoderBuilder
deriving DecidableEq, Repr

/-- Tags naming the fusion callables referenced by the recipes. -/
inductive FusionTag
  | identityFusion
  | deepFusionModel
  | concateFusionModel
deriving DecidableEq, Repr

/-- A model recipe: the model type, the named sub-module builders, and
the fusion class (dataclass `ModelRecipe`). -/
structure ModelRecipe where
  modelType : ModelType
  modules : List (String × ModuleBuilderTag)
  fusionClass : FusionTag
deriving DecidableEq, Repr

/-- `ModelRecipe._text_only()`. -/
def ModelRecipe.textOnlyRecipe : ModelRecipe :=
  { modelType := .textOnly
  , modules := [("text", .transformerBuilder)]
  , fusionClass := .identityFusion }

/-- `ModelRecipe._llama3_1()`. -/
def ModelRecipe.llama31Recipe : ModelRecipe :=
  { modelType := .llama3_1
  , modules := [("text", .llama31Builder)]
  , fusionClass := .identityFusion }

/-- `ModelRecipe._flamingo()`. -/
def ModelRecipe.flamingoRecipe : ModelRecipe :=
  { modelType := .flamingo
  , modules := [("encoder", .flamingoVisionEncoderBuilder),
                ("decoder", .flamingoDecoderBuilder)]
  , fusionClass := .deepFusionModel }

/-- `ModelRecipe._llava()`. -/
def ModelRecipe.llavaRecipe : ModelRecipe :=
  { modelType := .llava
  , modules := [("encoder", .clipVisionEncoderBuilder),
                ("decoder", .transformerBuilder)]
  , fusionClass := .concateFusionModel }

/-- `ModelRecipe.get_recipe(model_type)` (model.py lines 237-249): a
`match` over the four model types with a wildcard case raising
`ValueError(f"Can not find the model recipe for {model_type}")`. -/
def ModelRecipe.getRecipe : ModelTypeArg → Except ModelError ModelRecipe
  | .known .textOnly => .ok ModelRecipe.textOnlyRecipe
  | .known .flamingo => .ok ModelRecipe.flamingoRecipe
  | .known .llama3_1 => .ok ModelRecipe.llama31Recipe
  | .known .llava => .ok ModelRecipe.llavaRecipe
  | .unknown tag => .error (.valueError ("Can not find the model recipe for " ++ tag))

/- ---------------------------------------------------------------------
Rope scaling (model.py lines 905-938, apply_scaling)
--------------------------------------------------------------------- -/

/-- Value of `torch.pi` (the IEEE-754 double closest to pi), as an
exact rational: 884279719003555 / 2^48. -/
def torchPi : ℚ := 884279719003555 / 281474976710656

/-- The rope-scaling parameter dictionary: each required key may be
present (`some`) or missing (`none`), mirroring a Python dict that may
or may not contain the key. -/
structure RopeScalingArgs where
  factor : Option ℚ
  lowFreqFactor : Option ℚ
  highFreqFactor : Option ℚ
  originalMaxPositionEmbeddings : Option ℚ
deriving DecidableEq, Repr

/-- Body of the `for freq in freqs` loop of `apply_scaling`: classifies
one base frequency by its wavelength `2 * pi / freq` against the two
thresholds `old_context_len / low_freq_factor` and
`old_context_len / high_freq_factor`, with the code's branch order
(`if wavelen < high_freq_wavelen`, `elif wavelen > low_freq_wavelen`,
else the smoothed interpolation guarded by
`assert low_freq_wavelen != high_freq_wavelen`). -/
def scaleOneFreq (scaleFactor lowFreqFactor highFreqFactor oldContextLen freq : ℚ) :
    Except ModelError ℚ :=
  let lowFreqWavelen := oldContextLen / lowFreqFactor
  let highFreqWavelen := oldContextLen / highFreqFactor
  let wavelen := 2 * torchPi / freq
  if wavelen < highFreqWavelen then .ok freq
  else if lowFreqWavelen < wavelen then .ok (freq / scaleFactor)
  else if lowFreqWavelen = highFreqWavelen then .error .assertionError
  else
    let smooth := (oldContextLen / wavelen - lowFreqFactor) /
      (highFreqFactor - lowFreqFactor)
    .ok ((1 - smooth) * freq / scaleFactor + smooth * freq)

/-- The `new_freqs` accumulation loop of `apply_scaling`: the per-element
computation runs left to right and the first raised exception aborts
the whole call. -/
def scaleFreqList (f : ℚ → Except ModelError ℚ) : List ℚ → Except ModelError (List ℚ)
  | [] => .ok []
  | x :: xs =>
    match f x with
    | .error e => .error e
    | .ok y =>
      match scaleFreqList f xs with
      | .error e => .error e
      | .ok ys => .ok (y :: ys)

/-- `apply_scaling(freqs, rope_scaling)`: first checks that all four
required keys are present (otherwise
`ValueError("Missing required keys in apply_scaling. ...")`), then maps
the per-frequency rescaling over the list. -/
def applyScaling (freqs : List ℚ) (ropeScaling : RopeScalingArgs) :
    Except ModelError (List ℚ) :=
  match ropeScaling.factor, ropeScaling.lowFreqFactor, ropeScaling.highFreqFactor,
      ropeScaling.originalMaxPositionEmbeddings with
  | some scaleFactor, some lowFreqFactor, some highFreqFactor, some oldContextLen =>
    scaleFreqList (scaleOneFreq scaleFactor lowFreqFactor highFreqFactor oldContextLen) freqs
  | _, _, _, _ => .error (.valueError "Missing required keys in apply_scaling")

/-- The per-frequency rescaling as the specification words it (claim C4):
a frequency whose wavelength is below `old_context_len / high_freq_factor`
passes through unchanged, one whose wavelength is above
`old_context_len / low_freq_factor` is divided by `factor`, and the
middle band is replaced by `(1 - smooth) * freq / factor + smooth * freq`
with `smooth = (old_context_len / wavelen - low_freq_factor) /
(high_freq_factor - low_freq_factor)`. -/
def specScaleFreq (scaleFactor lowFreqFactor highFreqFactor oldContextLen freq : ℚ) : ℚ :=
  let wavelen := 2 * torchPi / freq
  if wavelen < oldContextLen / highFreqFactor then freq
  else if oldContextLen / lowFreqFactor < wavelen then freq / scaleFactor
  else
    let smooth := (oldContextLen / wavelen - lowFreqFactor) /
      (highFreqFactor - lowFreqFactor)
    (1 - smooth) * freq / scaleFactor + smooth * freq

/- ---------------------------------------------------------------------
Attention cache setup and Transformer cache state
(model.py lines 584-649, 733-770)
--------------------------------------------------------------------- -/

/-- Modelled from the spec: `find_multiple` comes from
`torchchat.utils.build_utils`, which is not among the provided sources.
Per the spec it "rounds the requested sequence length up to a fixed
alignment": the least multiple of `k` that is at least `n`. -/
def findMultiple (n k : ℕ) : ℕ :=
  if n % k = 0 then n else n + k - n % k

/-- The subset of `TransformerArgs` consumed by the embedded operations
(cache setup, rotary-table construction, and the forward shape
contract).  `head_dim` is `dim // n_heads` after `__post_init__` and
`n_local_heads` defaults to `n_heads`. -/
structure TransformerArgsL where
  blockSize : ℕ
  vocabSize : ℕ
  nLayers : ℕ
  nHeads : ℕ
  dim : ℕ
  nLocalHeads : ℕ
  headDim : ℕ
  ropeBase : ℚ
  ropeScaling : Option RopeScalingArgs
  nStages : ℕ
  stageIdx : ℕ
deriving DecidableEq, Repr

/-- The cache-relevant state of one `Attention` instance: its head
geometry, the tensor-parallel degree (`tp_degree`, set only by
`distribute()`), and its optional `kv_cache`. -/
structure AttentionState where
  nHeads : ℕ
  nLocalHeads : ℕ
  headDim : ℕ
  dim : ℕ
  tpDegree : Option ℕ
  kvCache : Option KVCache

/-- `Attention.setup_cache(max_batch_size, max_seq_length)` (model.py
lines 762-770): divides `n_local_heads` by `tp_degree` when tensor
parallelism was applied and allocates a fresh `KVCache`. -/
def AttentionState.setupCache (a : AttentionState) (maxBatchSize maxSeqLength : ℕ) :
    AttentionState :=
  let nLocal := match a.tpDegree with
    | some d => a.nLocalHeads / d
    | none => a.nLocalHeads
  { a with kvCache := some (KVCache.init maxBatchSize maxSeqLength nLocal a.headDim) }

/-- Entry `(i, j)` of `torch.tril(torch.ones(n, n, dtype=torch.bool))`:
true on and below the diagonal, inside the `n x n` extent. -/
def causalMaskEntry (n i j : ℕ) : Bool :=
  decide (j ≤ i ∧ i < n ∧ j < n)

/-- The mutable state of a `Transformer` instance that `setup_caches`
touches.  `F` is the type of the precomputed rotary table; the source
stores the table builder as an attribute chosen by `use_hf_rope`, so the
builder is likewise a parameter here.  The causal mask is determined by
its size (see `causalMaskEntry`), so only the size is stored.
`tokEmbeddings`/`hasOutputHead` record whether this pipeline stage owns
the embedding table resp. the final norm + output projection. -/
structure TransformerState (F : Type) where
  config : TransformerArgsL
  layers : List AttentionState
  tokEmbeddings : Bool
  hasOutputHead : Bool
  maxBatchSize : ℤ
  maxSeqLength : ℤ
  freqsCis : Option F
  causalMask : Option ℕ

/-- The attention module of a freshly constructed `TransformerBlock`. -/
def initAttention (cfg : TransformerArgsL) : AttentionState :=
  { nHeads := cfg.nHeads
  , nLocalHeads := cfg.nLocalHeads
  , headDim := cfg.headDim
  , dim := cfg.dim
  , tpDegree := none
  , kvCache := none }

/-- `Transformer.__init__` (model.py lines 585-619): this stage owns
`layers_per_stage = n_layers // n_stages` blocks, the embedding table
iff `stage_idx == 0`, and the norm + output head iff
`stage_idx == n_stages - 1`; `max_batch_size` and `max_seq_length` start
at `-1` and no rotary table or mask exists yet. -/
def TransformerState.init (F : Type) (cfg : TransformerArgsL) : TransformerState F :=
  { config := cfg
  , layers := List.replicate (cfg.nLayers / cfg.nStages) (initAttention cfg)
  , tokEmbeddings := decide (cfg.stageIdx = 0)
  , hasOutputHead := decide (cfg.stageIdx = cfg.nStages - 1)
  , maxBatchSize := -1
  , maxSeqLength := -1
  , freqsCis := none
  , causalMask := none }

/-- `Transformer.setup_caches(max_batch_size, max_seq_length)` (model.py
lines 622-649): returns unchanged when the stored sizes already cover
the request; otherwise rounds the sequence length up to a multiple of 8,
overwrites both stored sizes, reallocates every layer's cache through
`Attention.setup_cache`, and rebuilds the rotary table (built from
`dim // n_heads`, `block_size * 2`, `rope_base` and `rope_scaling`) and
the `max_seq_length x max_seq_length` causal mask. -/
def TransformerState.setupCaches {F : Type}
    (precomputeFreqsCis : ℕ → ℕ → ℚ → Option RopeScalingArgs → F)
    (st : TransformerState F) (maxBatchSize maxSeqLength : ℕ) : TransformerState F :=
  if (maxSeqLength : ℤ) ≤ st.maxSeqLength ∧ (maxBatchSize : ℤ) ≤ st.maxBatchSize then
    st
  else
    let maxSeqLength2 := findMultiple maxSeqLength 8
    { st with
      maxSeqLength := (maxSeqLength2 : ℤ)
    , maxBatchSize := (maxBatchSize : ℤ)
    , layers := st.layers.map (fun a => a.setupCache maxBatchSize maxSeqLength2)
    , freqsCis := some (precomputeFreqsCis (st.config.dim / st.config.nHeads)
        (st.config.blockSize * 2) st.config.ropeBase st.config.ropeScaling)
    , causalMask := some maxSeqLength2 }

/- ---------------------------------------------------------------------
MultiModalProjector and ConcateFusion (model.py lines 59-165)
--------------------------------------------------------------------- -/

/-- `MultiModalProjector`: two linear layers around one activation.
The layers and the activation act on single feature vectors; `Feat` and
`Emb` abstract the 1024-wide clip feature space and the 4096-wide
decoder embedding space. -/
structure MultiModalProjector (Feat Emb : Type) where
  linear1 : Feat → Emb
  act : Emb → Emb
  linear2 : Emb → Emb

/-- `MultiModalProjector.forward(image_features)`:
`linear_2(act(linear_1(image_features)))`. -/
def MultiModalProjector.fwd {Feat Emb : Type} (p : MultiModalProjector Feat Emb)
    (imageFeatures : Feat) : Emb :=
  p.linear2 (p.act (p.linear1 imageFeatures))

/-- `ConcateFusion._get_decoder_input(tokens, encoder_output, post_tokens)`
(model.py lines 144-165), with batch size 1 so that each tensor is its
list of sequence positions: without encoder output it asserts that no
post tokens were given and returns the token embeddings (the source
additionally unsqueezes a batch dimension, which a sequence list does
not record); with encoder output it embeds the pre tokens, projects each
encoder feature through the `MultiModalProjector`, embeds the post
tokens when present, and concatenates the segments along the sequence
axis in pre / image / post order. -/
def getDecoderInput {Tok Emb Feat : Type}
    (tokEmbeddings : Tok → Emb) (mmProjector : MultiModalProjector Feat Emb)
    (tokens : List Tok) (encoderOutput : Option (List Feat))
    (postTokens : Option (List Tok)) : Except ModelError (List Emb) :=
  match encoderOutput with
  | none =>
    match postTokens with
    | some _ => .error .assertionError
    | none => .ok (tokens.map tokEmbeddings)
  | some encOut =>
    let preImgEmbed := tokens.map tokEmbeddings
    let imageEmbeds := encOut.map mmProjector.fwd
    match postTokens with
    | none => .ok (preImgEmbed ++ imageEmbeds)
    | some post => .ok (preImgEmbed ++ imageEmbeds ++ post.map tokEmbeddings)

/- ---------------------------------------------------------------------
Shape-level forward contract (model.py lines 101-130 and 685-708)
--------------------------------------------------------------------- -/

/-- A tensor shape: the list of dimension sizes. -/
abbrev Shape := List ℕ

/-- Shape of `nn.Embedding(vocab_size, dim)` applied to a `[b, s]`
token tensor: `[b, s, dim]`. -/
def embeddingShape (dim : ℕ) : Shape → Option Shape
  | [b, s] => some [b, s, dim]
  | _ => none

/-- Shape of one `TransformerBlock.forward` application.  The block is
`h = x + attention(norm(x)); out = h + feed_forward(norm(h))`: the
residual additions force the output shape to equal the input shape, and
the projections inside require the trailing dimension to be the model
width `dim`. -/
def blockShape (dim : ℕ) : Shape → Option Shape
  | [b, s, d] => if d = dim then some [b, s, d] else none
  | _ => none

/-- Shape of the output head (`RMSNorm` followed by
`nn.Linear(dim, vocab_size)`): the norm preserves the shape and the
linear projection replaces the trailing `dim` by `vocab_size`. -/
def outputHeadShape (dim vocabSize : ℕ) : Shape → Option Shape
  | [b, s, d] => if d = dim then some [b, s, vocabSize] else none
  | _ => none

/-- Shape behavior of `Transformer.forward(x, input_pos)` (model.py
lines 685-708): asserts that `freqs_cis` exists ("Caches must be
initialized first"), embeds the tokens when this stage owns the
embedding table (otherwise `x` is already `[b, s, dim]`), runs every
block, and applies the norm + output head when this stage owns it.
`input_pos` only selects mask and rotary rows and does not influence the
output shape; the `_input_pos` side channel for non-first pipeline
stages is not modelled, so the positions are a required argument. -/
def TransformerState.forwardShape {F : Type} (st : TransformerState F)
    (x : Shape) (inputPos : List ℕ) : Except ModelError Shape :=
  match st.freqsCis with
  | none => .error .assertionError
  | some _ =>
    let _ := inputPos
    let embedded : Option Shape :=
      if st.tokEmbeddings then embeddingShape st.config.dim x else some x
    match embedded with
    | none => .error .shapeError
    | some x1 =>
      match st.layers.foldlM (fun s _ => blockShape st.config.dim s) x1 with
      | none => .error .shapeError
      | some x2 =>
        if st.hasOutputHead then
          match outputHeadShape st.config.dim st.config.vocabSize x2 with
          | none => .error .shapeError
          | some x3 => .ok x3
        else .ok x2

/-- Result of `ConcateFusion.forward`: either a plain decoder output
(when `input_pos` was supplied) or, on the prefill path, the pair
`(decoder_input.shape[1], decoder_output)` that line 128 of model.py
returns. -/
inductive LlavaOutput (α : Type)
  | tensorOut (t : α)
  | pairOut (contextLen : ℕ) (t : α)
deriving DecidableEq, Repr

/-- Sequence length of the decoder input produced by
`ConcateFusion._get_decoder_input`, given the lengths of the pre-token,
selected-encoder-feature and post-token segments (see
`getDecoderInput`; the projector preserves the number of positions). -/
def decoderInputLen (tokensLen : ℕ) :
    Option ℕ → Option ℕ → Except ModelError ℕ
  | none, some _ => .error .assertionError
  | none, none => .ok tokensLen
  | some encLen, none => .ok (tokensLen + encLen)
  | some encLen, some postLen => .ok (tokensLen + encLen + postLen)

/-- Shape behavior of `ConcateFusion.forward(tokens, post_tokens,
encoder_input, input_pos)` (model.py lines 101-130), with batch size 1:
the encoder plus `_encoder_feature_select` turn the supplied image into
`encSeqLen` feature positions, `_get_decoder_input` builds a
`[1, s, dim]` decoder input of the concatenated sequence length `s`, and
then either `input_pos` is absent — the prefill path, which feeds
`torch.arange(s)` to the decoder and returns the PAIR
`(s, decoder(...))` — or `input_pos` is supplied and the bare decoder
output is returned. -/
def concateFusionForwardShape {F : Type} (decoder : TransformerState F)
    (tokensLen : ℕ) (encSeqLen : Option ℕ) (postTokensLen : Option ℕ)
    (inputPos : Option (List ℕ)) : Except ModelError (LlavaOutput Shape) :=
  match decoderInputLen tokensLen encSeqLen postTokensLen with
  | .error e => .error e
  | .ok s =>
    let decoderInputShape : Shape := [1, s, decoder.config.dim]
    match inputPos with
    | none =>
      match decoder.forwardShape decoderInputShape (List.range s) with
      | .error e => .error e
      | .ok out => .ok (.pairOut s out)
    | some ip =>
      match decoder.forwardShape decoderInputShape ip with
      | .error e => .error e
      | .ok out => .ok (.tensorOut out)

/-- `ConcateFusion.__init__` hoists the decoder's embedding table into
the fusion wrapper and sets the decoder's own `tok_embeddings` attribute
to `None`, so the decoder consumes pre-embedded `[b, s, dim]` input. -/
def hoistEmbedding {F : Type} (st : TransformerState F) : TransformerState F :=
  { st with tokEmbeddings := false }

/- ---------------------------------------------------------------------
Fuzzy config-name resolution (model.py lines 376-407)
--------------------------------------------------------------------- -/

/-- A config or lookup name; Python str modelled as its character list. -/
abbrev CfgName := List Char

/-- Python `str.upper()`. -/
def toUpperName (s : CfgName) : CfgName := s.map Char.toUpper

/-- Python `needle in hay` on strings: `needle` occurs contiguously in
`hay` (the empty needle always occurs). -/
def isSubstrOf (needle : CfgName) : CfgName → Bool
  | [] => needle.isEmpty
  | c :: rest => needle.isPrefixOf (c :: rest) || isSubstrOf needle rest

/-- The fuzzy-match candidate list of `ModelArgs.from_name`: the known
config names `config` with `config in str(name).upper() or config in
str(name)`. -/
def fuzzyMatches (knownModelParams : List CfgName) (name : CfgName) : List CfgName :=
  knownModelParams.filter
    (fun config => isSubstrOf config (toUpperName name) || isSubstrOf config name)

/-- One step of Python's stable descending-by-length sort
(`config.sort(key=len, reverse=True)`): insert `x` before the first
already-placed element that is not longer than `x`. -/
def insertByLenDesc (x : CfgName) : List CfgName → List CfgName
  | [] => [x]
  | y :: ys => if y.length ≤ x.length then x :: y :: ys else y :: insertByLenDesc x ys

/-- Stable sort by descending length. -/
def sortByLenDesc (l : List CfgName) : List CfgName := l.foldr insertByLenDesc []

/-- The name-resolution logic of `ModelArgs.from_name(name)` (model.py
lines 376-407) after the exact-filename fast path (a filesystem probe,
not modelled): filter the known config names down to substring matches;
with more than one match, sort by descending length and `assert` that
the two longest differ in length (ambiguity is an `AssertionError`);
with zero matches raise `ValueError(f"Unknown model directory name
...")`; finally resolve to `config[0]`. -/
def fromNameFuzzy (knownModelParams : List CfgName) (name : CfgName) :
    Except ModelError CfgName :=
  let config := fuzzyMatches knownModelParams name
  if 1 < config.length then
    match sortByLenDesc config with
    | a :: b :: _ =>
      if a.length = b.length then .error .assertionError else .ok a
    | _ => .error .assertionError
  else if config.length = 0 then
    .error (.valueError "Unknown model directory name")
  else
    match config with
    | a :: _ => .ok a
    | [] => .error (.valueError "Unknown model directory name")

/- ---------------------------------------------------------------------
Concrete instances used by the closed witness and counterexample
theorems below
--------------------------------------------------------------------- -/

/-- Sample key tensor for two positions. -/
def kValEx : Tensor4 := { seqLen := 2, data := fun _ _ i _ => (i : ℚ) + 1 }

/-- Sample value tensor for two positions. -/
def vValEx : Tensor4 := { seqLen := 2, data := fun _ _ i _ => (i : ℚ) + 10 }

/-- A rotary-table builder producing a trivial table; the cache-capacity
facts do not depend on table contents. -/
def unitPrecompute : ℕ → ℕ → ℚ → Option RopeScalingArgs → Unit := fun _ _ _ _ => ()

/-- A small text-only two-layer configuration. -/
def tinyArgs : TransformerArgsL :=
  { blockSize := 2048, vocabSize := 100, nLayers := 2, nHeads := 4, dim := 64
  , nLocalHeads := 4, headDim := 16, ropeBase := 10000, ropeScaling := none
  , nStages := 1, stageIdx := 0 }

/-- The llava-1.5 text-decoder configuration (vocab 32064, width 4096). -/
def llavaArgsEx : TransformerArgsL :=
  { blockSize := 2048, vocabSize := 32064, nLayers := 32, nHeads := 32, dim := 4096
  , nLocalHeads := 32, headDim := 128, ropeBase := 10000, ropeScaling := none
  , nStages := 1, stageIdx := 0 }

/-- The llava decoder as `ConcateFusion.__init__` leaves it (embedding
hoisted into the wrapper) after `setup_caches(1, 768)`. -/
def llavaDecoderEx : TransformerState Unit :=
  (hoistEmbedding (TransformerState.init Unit llavaArgsEx)).setupCaches unitPrecompute 1 768

/-- Rope-scaling dictionary with the llama-3.1 values. -/
def rsEx : RopeScalingArgs :=
  { factor := some 8, lowFreqFactor := some 1, highFreqFactor := some 4
  , originalMaxPositionEmbeddings := some 8192 }

/-- Rope-scaling dictionary with the `factor` key missing. -/
def rsMissingEx : RopeScalingArgs :=
  { factor := none, lowFreqFactor := some 1, highFreqFactor := some 4
  , originalMaxPositionEmbeddings := some 8192 }

/-- Identity projector over unit features. -/
def unitProjector : MultiModalProjector Unit Unit :=
  { linear1 := id, act := id, linear2 := id }

/-- Known config names of the specification example. -/
def knownEx : List CfgName := ["7B".toList, "Mistral-7B".toList]

/-- Lookup key of the specification example. -/
def keyEx : CfgName := "Mistral-7B-v2".toList

/- ---------------------------------------------------------------------
Helper lemmas
--------------------------------------------------------------------- -/

theorem findIdxOpt_eq_none {s : ℕ} : ∀ {l : List ℕ}, s ∉ l → findIdxOpt s l = none
  | [], _ => rfl
  | a :: l, h => by
    have h1 : ¬ a = s := fun hh => h (hh ▸ List.mem_cons_self a l)
    have h2 : s ∉ l := fun hh => h (List.mem_cons_of_mem a hh)
    simp [findIdxOpt, h1, findIdxOpt_eq_none h2]

theorem findIdxOpt_get : ∀ (l : List ℕ), l.Nodup → ∀ (i : Fin l.length),
    findIdxOpt (l.get i) l = some i.1
  | [], _, i => absurd i.isLt (by simp)
  | a :: l, hnd, i => by
    rcases i with ⟨iv, hiv⟩
    cases iv with
    | zero => simp [findIdxOpt]
    | succ j =>
      have hj : j < l.length := Nat.lt_of_succ_lt_succ hiv
      have hmem : l.get ⟨j, hj⟩ ∈ l := List.get_mem l j hj
      have hne : ¬ a = l.get ⟨j, hj⟩ := fun h => (List.nodup_cons.mp hnd).1 (h ▸ hmem)
      have ih := findIdxOpt_get l (List.nodup_cons.mp hnd).2 ⟨j, hj⟩
      show (if a = l.get ⟨j, hj⟩ then some 0
        else (findIdxOpt (l.get ⟨j, hj⟩) l).map (· + 1)) = some (j + 1)
      rw [if_neg hne, ih]
      rfl

/- ---------------------------------------------------------------------
Claim theorems
--------------------------------------------------------------------- -/

/-- C1: for every duplicate-free absolute position list `P` and key/value
tensors whose sequence length equals `len(P)`, `KVCache.update(P, k, v)`
succeeds and returns the full buffers: reading the returned buffers at
the positions `P` yields exactly `k` and `v`, every position outside `P`
still holds whatever it held before the call, and in particular for a
freshly zero-filled cache every position outside `P` still holds the
zero-fill value. -/
theorem kvcache_update_roundtrip
    (c : KVCache) (pos : List ℕ) (kVal vVal : Tensor4)
    (hnodup : pos.Nodup)
    (hk : pos.length = kVal.seqLen) (hv : pos.length = vVal.seqLen) :
    ∃ c2, c.update pos kVal vVal = .ok c2 ∧
      (∀ i : Fin pos.length, ∀ b h d,
        c2.kCache b h (pos.get i) d = kVal.data b h i.1 d ∧
        c2.vCache b h (pos.get i) d = vVal.data b h i.1 d) ∧
      (∀ b h s d, s ∉ pos →
        c2.kCache b h s d = c.kCache b h s d ∧
        c2.vCache b h s d = c.vCache b h s d) ∧
      (∀ mb ms nh hd, c = KVCache.init mb ms nh hd →
        ∀ b h s d, s ∉ pos → c2.kCache b h s d = 0 ∧ c2.vCache b h s d = 0) := by
  refine ⟨{ c with
      kCache := indexPutSeq c.kCache pos kVal.data
    , vCache := indexPutSeq c.vCache pos vVal.data }, ?_, ?_, ?_, ?_⟩
  · unfold KVCache.update
    rw [if_pos hk]
  · intro i b h d
    constructor
    · show indexPutSeq c.kCache pos kVal.data b h (pos.get i) d = _
      unfold indexPutSeq
      rw [findIdxOpt_get pos hnodup i]
    · show indexPutSeq c.vCache pos vVal.data b h (pos.get i) d = _
      unfold indexPutSeq
      rw [findIdxOpt_get pos hnodup i]
  · intro b h s d hs
    constructor
    · show indexPutSeq c.kCache pos kVal.data b h s d = _
      unfold indexPutSeq
      rw [findIdxOpt_eq_none hs]
    · show indexPutSeq c.vCache pos vVal.data b h s d = _
      unfold indexPutSeq
      rw [findIdxOpt_eq_none hs]
  · intro mb ms nh hd hc b h s d hs
    subst hc
    constructor
    · show indexPutSeq (fun _ _ _ _ => 0) pos kVal.data b h s d = 0
      unfold indexPutSeq
      rw [findIdxOpt_eq_none hs]
    · show indexPutSeq (fun _ _ _ _ => 0) pos vVal.data b h s d = 0
      unfold indexPutSeq
      rw [findIdxOpt_eq_none hs]

/-- Witness for C1 at the cache `KVCache.init 1 4 1 1` and positions
`[1, 3]`. -/
theorem kvcache_update_roundtrip_witness :
    ∃ c2, (KVCache.init 1 4 1 1).update [1, 3] kValEx vValEx = .ok c2 ∧
      (∀ i : Fin ([1, 3] : List ℕ).length, ∀ b h d,
        c2.kCache b h (([1, 3] : List ℕ).get i) d = kValEx.data b h i.1 d ∧
        c2.vCache b h (([1, 3] : List ℕ).get i) d = vValEx.data b h i.1 d) ∧
      (∀ b h s d, s ∉ ([1, 3] : List ℕ) →
        c2.kCache b h s d = (KVCache.init 1 4 1 1).kCache b h s d ∧
        c2.vCache b h s d = (KVCache.init 1 4 1 1).vCache b h s d) ∧
      (∀ mb ms nh hd, KVCache.init 1 4 1 1 = KVCache.init mb ms nh hd →
        ∀ b h s d, s ∉ ([1, 3] : List ℕ) →
          c2.kCache b h s d = 0 ∧ c2.vCache b h s d = 0) :=
  kvcache_update_roundtrip (KVCache.init 1 4 1 1) [1, 3] kValEx vValEx
    (by decide) rfl rfl

/-- C10: the `identity` fusion accepts exactly one keyword argument and
returns that argument's value unchanged; with zero or with two or more
keyword arguments it raises `ValueError` instead of returning. -/
theorem identity_fusion_single_kwarg {α : Type} :
    (∀ (k : String) (v : α), identity [(k, v)] = .ok v) ∧
    (∀ kwargs : Kwargs α, kwargs.length ≠ 1 →
      identity kwargs = .error (.valueError "Only one argument is expected")) := by
  constructor
  · intro k v
    rfl
  · intro kwargs h
    unfold identity
    rw [if_neg h]

/-- Witness for C10: one argument returns its value; zero and two
arguments raise. -/
theorem identity_fusion_single_kwarg_witness :
    identity [("text", 7)] = .ok 7 ∧
    identity ([] : Kwargs ℕ) = .error (.valueError "Only one argument is expected") ∧
    identity [("a", 1), ("b", 2)] = .error (.valueError "Only one argument is expected") :=
  ⟨identity_fusion_single_kwarg.1 "text" 7,
   identity_fusion_single_kwarg.2 [] (by decide),
   identity_fusion_single_kwarg.2 [("a", 1), ("b", 2)] (by decide)⟩

/-- C6: recipe lookup is total and exhaustive over exactly the four
declared model types — each returns the recipe carrying that type's
declared module set and fusion class — and any tag outside these four
raises the registry error. -/
theorem get_recipe_total_exhaustive :
    ModelRecipe.getRecipe (.known .textOnly) =
      .ok { modelType := .textOnly
          , modules := [("text", .transformerBuilder)]
          , fusionClass := .identityFusion } ∧
    ModelRecipe.getRecipe (.known .llama3_1) =
      .ok { modelType := .llama3_1
          , modules := [("text", .llama31Builder)]
          , fusionClass := .identityFusion } ∧
    ModelRecipe.getRecipe (.known .flamingo) =
      .ok { modelType := .flamingo
          , modules := [("encoder", .flamingoVisionEncoderBuilder),
                        ("decoder", .flamingoDecoderBuilder)]
          , fusionClass := .deepFusionModel } ∧
    ModelRecipe.getRecipe (.known .llava) =
      .ok { modelType := .llava
          , modules := [("encoder", .clipVisionEncoderBuilder),
                        ("decoder", .transformerBuilder)]
          , fusionClass := .concateFusionModel } ∧
    ∀ tag : String, ModelRecipe.getRecipe (.unknown tag) =
      .error (.valueError ("Can not find the model recipe for " ++ tag)) :=
  ⟨rfl, rfl, rfl, rfl, fun _ => rfl⟩

theorem le_findMultiple (n : ℕ) : n ≤ findMultiple n 8 := by
  unfold findMultiple
  split
  · exact le_refl n
  · have h8 : n % 8 < 8 := Nat.mod_lt n (by norm_num)
    omega

theorem setupCaches_covers {F : Type}
    (pre : ℕ → ℕ → ℚ → Option RopeScalingArgs → F)
    (st : TransformerState F) (b s : ℕ) :
    (s : ℤ) ≤ (st.setupCaches pre b s).maxSeqLength ∧
    (b : ℤ) ≤ (st.setupCaches pre b s).maxBatchSize := by
  unfold TransformerState.setupCaches
  split
  · assumption
  · constructor
    · show (s : ℤ) ≤ (findMultiple s 8 : ℕ)
      exact_mod_cast le_findMultiple s
    · exact le_refl _

theorem setupCaches_noop {F : Type}
    (pre : ℕ → ℕ → ℚ → Option RopeScalingArgs → F)
    (st : TransformerState F) (b s : ℕ)
    (h : (s : ℤ) ≤ st.maxSeqLength ∧ (b : ℤ) ≤ st.maxBatchSize) :
    st.setupCaches pre b s = st := by
  unfold TransformerState.setupCaches
  rw [if_pos h]

/-- C2: after `setup_caches(b1, s1)`, a second call `setup_caches(b2, s2)`
with `b2 ≤ b1` and `s2 ≤ s1` leaves the whole transformer state — every
layer's KV cache buffers, the rotary table, the causal mask, and the
stored capacity fields — unchanged. -/
theorem setup_caches_noop_when_covered {F : Type}
    (pre : ℕ → ℕ → ℚ → Option RopeScalingArgs → F)
    (st : TransformerState F) (b1 s1 b2 s2 : ℕ)
    (hb : b2 ≤ b1) (hs : s2 ≤ s1) :
    (st.setupCaches pre b1 s1).setupCaches pre b2 s2 = st.setupCaches pre b1 s1 := by
  have hcov := setupCaches_covers pre st b1 s1
  refine setupCaches_noop pre _ b2 s2 ⟨?_, ?_⟩
  · exact le_trans (by exact_mod_cast hs) hcov.1
  · exact le_trans (by exact_mod_cast hb) hcov.2

/-- Witness for C2: `setup_caches(2, 8)` then `setup_caches(1, 4)` on a
fresh two-layer transformer. -/
theorem setup_caches_noop_when_covered_witness :
    ((TransformerState.init Unit tinyArgs).setupCaches unitPrecompute 2 8).setupCaches
        unitPrecompute 1 4 =
      (TransformerState.init Unit tinyArgs).setupCaches unitPrecompute 2 8 :=
  setup_caches_noop_when_covered unitPrecompute (TransformerState.init Unit tinyArgs)
    2 8 1 4 (by decide) (by decide)

theorem setupCaches_realloc {F : Type}
    (pre : ℕ → ℕ → ℚ → Option RopeScalingArgs → F)
    (st : TransformerState F) (b s : ℕ)
    (h : ¬ ((s : ℤ) ≤ st.maxSeqLength ∧ (b : ℤ) ≤ st.maxBatchSize)) :
    st.setupCaches pre b s =
      { st with
        maxSeqLength := ((findMultiple s 8 : ℕ) : ℤ)
      , maxBatchSize := (b : ℤ)
      , layers := st.layers.map (fun a => a.setupCache b (findMultiple s 8))
      , freqsCis := some (pre (st.config.dim / st.config.nHeads)
          (st.config.blockSize * 2) st.config.ropeBase st.config.ropeScaling)
      , causalMask := some (findMultiple s 8) } := by
  unfold TransformerState.setupCaches
  rw [if_neg h]

/-- C3 counterexample: on a fresh two-layer transformer,
`setup_caches(2, 8)` followed by `setup_caches(1, 16)` (smaller batch,
larger sequence) leaves every layer's cache with batch capacity 1, not
"at least 2" as the claim requires: the capacity is not the running
maximum of the requests. -/
theorem setup_caches_capacity_shrinks_cex :
    (((TransformerState.init Unit tinyArgs).setupCaches unitPrecompute 2 8).setupCaches
        unitPrecompute 1 16).layers.map
      (fun a => a.kvCache.map (fun c => c.maxBatchSize)) = [some 1, some 1] ∧
    ¬ (2 : ℕ) ≤ 1 := by
  constructor
  · rfl
  · decide

/-- C3 amended: the capacity maintained by `setup_caches` is the most
recent request, not the running maximum.  A reallocation happens exactly
when the stored sizes do not both cover the request, and it sizes every
layer's cache to exactly the requested batch size and the requested
sequence length rounded up to a multiple of 8 — so after
`setup_caches(b1, s1)` on a fresh transformer followed by
`setup_caches(b2, s2)` with `b2 < b1` and `s2 > find_multiple(s1, 8)`,
every layer's cache has batch capacity exactly `b2`, strictly below
`b1`. -/
theorem setup_caches_capacity_is_latest_request {F : Type}
    (pre : ℕ → ℕ → ℚ → Option RopeScalingArgs → F)
    (st0 : TransformerState F) (b1 s1 b2 s2 : ℕ)
    (hfb : st0.maxBatchSize = -1) (hfs : st0.maxSeqLength = -1)
    (hs2 : findMultiple s1 8 < s2) (hb2 : b2 < b1) :
    ∀ a ∈ ((st0.setupCaches pre b1 s1).setupCaches pre b2 s2).layers,
      ∃ c, a.kvCache = some c ∧ c.maxBatchSize = b2 ∧
        c.maxSeqLength = findMultiple s2 8 ∧ c.maxBatchSize < b1 := by
  have h1 : ¬ ((s1 : ℤ) ≤ st0.maxSeqLength ∧ (b1 : ℤ) ≤ st0.maxBatchSize) := by
    rw [hfs]
    intro hcon
    have := hcon.1
    omega
  rw [setupCaches_realloc pre st0 b1 s1 h1]
  have h2 : ¬ ((s2 : ℤ) ≤ ((findMultiple s1 8 : ℕ) : ℤ) ∧
      (b2 : ℤ) ≤ ((b1 : ℕ) : ℤ)) := by
    intro hcon
    have := hcon.1
    have hcast : (s2 : ℤ) ≤ (findMultiple s1 8 : ℕ) := this
    have : s2 ≤ findMultiple s1 8 := by exact_mod_cast hcast
    omega
  rw [setupCaches_realloc pre _ b2 s2 h2]
  intro a ha
  simp only [List.map_map, List.mem_map] at ha
  obtain ⟨x, _, hx⟩ := ha
  refine ⟨KVCache.init b2 (findMultiple s2 8)
    (match x.tpDegree with
     | some d => x.nLocalHeads / d
     | none => x.nLocalHeads) x.headDim, ?_, rfl, rfl, hb2⟩
  rw [← hx]
  rfl

/-- Witness for C3 amended: `setup_caches(2, 8)` then `setup_caches(1, 16)`
on a fresh two-layer transformer leaves each cache with batch capacity
exactly 1 < 2. -/
theorem setup_caches_capacity_is_latest_request_witness :
    ∃ c, ((((TransformerState.init Unit tinyArgs).setupCaches unitPrecompute 2
        8).setupCaches unitPrecompute 1 16).layers.get ⟨0, by decide⟩).kvCache =
        some c ∧
      c.maxBatchSize = 1 ∧ c.maxSeqLength = findMultiple 16 8 ∧
      c.maxBatchSize < 2 :=
  setup_caches_capacity_is_latest_request unitPrecompute
    (TransformerState.init Unit tinyArgs) 2 8 1 16 rfl rfl (by decide) (by decide)
    _ (List.get_mem _ 0 (by decide))

theorem scaleFreqList_ok {f : ℚ → Except ModelError ℚ} {g : ℚ → ℚ} :
    ∀ (l : List ℚ), (∀ x ∈ l, f x = .ok (g x)) →
      scaleFreqList f l = .ok (l.map g)
  | [], _ => rfl
  | x :: xs, h => by
    unfold scaleFreqList
    rw [h x (List.mem_cons_self x xs),
      scaleFreqList_ok xs (fun y hy => h y (List.mem_cons_of_mem x hy))]
    rfl

theorem wavelen_thresholds {lf hf oc : ℚ} (hoc : 0 < oc) (hlf : 0 < lf)
    (hlh : lf < hf) : oc / hf < oc / lf := by
  have hhf : 0 < hf := lt_trans hlf hlh
  rw [div_lt_div_iff hhf hlf]
  exact (mul_lt_mul_left hoc).mpr hlh

theorem wavelen_ne {lf hf oc : ℚ} (hoc : 0 < oc) (hlf : 0 < lf)
    (hlh : lf < hf) : oc / lf ≠ oc / hf :=
  ne_of_gt (wavelen_thresholds hoc hlf hlh)

theorem scaleOneFreq_eq_spec {sf lf hf oc : ℚ} (hne : oc / lf ≠ oc / hf)
    (f : ℚ) : scaleOneFreq sf lf hf oc f = .ok (specScaleFreq sf lf hf oc f) := by
  simp only [scaleOneFreq, specScaleFreq]
  split_ifs with h1 h2
  · rfl
  · rfl
  · rfl

/-- C4: `apply_scaling` fails with the missing-keys `ValueError` when any
of the four required rope-scaling keys is absent; with all keys present
(and sensible positive parameters `0 < old_context_len`,
`0 < low_freq_factor < high_freq_factor`) it maps every base frequency
through the spec's classification: a frequency whose wavelength
`2 * pi / f` is below `old_context_len / high_freq_factor` passes
through unchanged, one whose wavelength is above
`old_context_len / low_freq_factor` is divided by `factor`, and the
middle band is replaced by `(1 - smooth) * f / factor + smooth * f` with
`smooth = (old_context_len / wavelen - low_freq_factor) /
(high_freq_factor - low_freq_factor)`. -/
theorem apply_scaling_spec_conformance (rs : RopeScalingArgs) (freqs : List ℚ) :
    ((rs.factor = none ∨ rs.lowFreqFactor = none ∨ rs.highFreqFactor = none ∨
        rs.originalMaxPositionEmbeddings = none) →
      applyScaling freqs rs =
        .error (.valueError "Missing required keys in apply_scaling")) ∧
    (∀ sf lf hf oc,
      rs = { factor := some sf, lowFreqFactor := some lf, highFreqFactor := some hf
           , originalMaxPositionEmbeddings := some oc } →
      0 < oc → 0 < lf → lf < hf →
      applyScaling freqs rs = .ok (freqs.map (specScaleFreq sf lf hf oc))) ∧
    (∀ sf lf hf oc f, 0 < oc → 0 < lf → lf < hf →
      (2 * torchPi / f < oc / hf → scaleOneFreq sf lf hf oc f = .ok f) ∧
      (oc / lf < 2 * torchPi / f → scaleOneFreq sf lf hf oc f = .ok (f / sf)) ∧
      (oc / hf ≤ 2 * torchPi / f → 2 * torchPi / f ≤ oc / lf →
        scaleOneFreq sf lf hf oc f =
          .ok ((1 - (oc / (2 * torchPi / f) - lf) / (hf - lf)) * f / sf +
            (oc / (2 * torchPi / f) - lf) / (hf - lf) * f))) := by
  refine ⟨?_, ?_, ?_⟩
  · obtain ⟨f1, f2, f3, f4⟩ := rs
    intro h
    rcases f1 with _ | a <;> rcases f2 with _ | b <;> rcases f3 with _ | c <;>
      rcases f4 with _ | d <;> simp_all [applyScaling]
  · intro sf lf hf oc hrs hoc hlf hlh
    subst hrs
    show scaleFreqList (scaleOneFreq sf lf hf oc) freqs = _
    exact scaleFreqList_ok freqs
      (fun x _ => scaleOneFreq_eq_spec (wavelen_ne hoc hlf hlh) x)
  · intro sf lf hf oc f hoc hlf hlh
    refine ⟨?_, ?_, ?_⟩
    · intro h
      simp only [scaleOneFreq]
      rw [if_pos h]
    · intro h
      have hno : ¬ (2 * torchPi / f < oc / hf) :=
        not_lt.mpr (le_of_lt (lt_trans (wavelen_thresholds hoc hlf hlh) h))
      simp only [scaleOneFreq]
      rw [if_neg hno, if_pos h]
    · intro hge hle
      have hno1 : ¬ (2 * torchPi / f < oc / hf) := not_lt.mpr hge
      have hno2 : ¬ (oc / lf < 2 * torchPi / f) := not_lt.mpr hle
      simp only [scaleOneFreq]
      rw [if_neg hno1, if_neg hno2, if_neg (wavelen_ne hoc hlf hlh)]

/-- Witness for C4: the llama-3.1 parameters `(8, 1, 4, 8192)` with
frequency 1, and the same dictionary with the `factor` key removed. -/
theorem apply_scaling_witness :
    applyScaling [1] rsMissingEx =
      .error (.valueError "Missing required keys in apply_scaling") ∧
    applyScaling [1] rsEx = .ok ([1].map (specScaleFreq 8 1 4 8192)) ∧
    scaleOneFreq 8 1 4 8192 1 = .ok 1 := by
  refine ⟨?_, ?_, ?_⟩
  · exact (apply_scaling_spec_conformance rsMissingEx [1]).1 (Or.inl rfl)
  · exact (apply_scaling_spec_conformance rsEx [1]).2.1 8 1 4 8192 rfl
      (by norm_num) (by norm_num) (by norm_num)
  · exact ((apply_scaling_spec_conformance rsEx [1]).2.2 8 1 4 8192 1
      (by norm_num) (by norm_num) (by norm_num)).1
      (by rw [torchPi]; norm_num)

/-- C5: the rescaling of `apply_scaling` is continuous at both wavelength
thresholds: a frequency whose wavelength equals
`old_context_len / low_freq_factor` falls in the middle band with smooth
coefficient 0, so the interpolated value equals `freq / factor` (the
long-wavelength branch), and a frequency whose wavelength equals
`old_context_len / high_freq_factor` falls in the middle band with
smooth coefficient 1, so the interpolated value equals `freq` (the
pass-through branch). -/
theorem rope_scaling_boundary_continuity (sf lf hf oc freqLow freqHigh : ℚ)
    (hoc : 0 < oc) (hlf : 0 < lf) (hlh : lf < hf)
    (hwLow : 2 * torchPi / freqLow = oc / lf)
    (hwHigh : 2 * torchPi / freqHigh = oc / hf) :
    ((oc / (2 * torchPi / freqLow) - lf) / (hf - lf) = 0 ∧
      scaleOneFreq sf lf hf oc freqLow = .ok (freqLow / sf)) ∧
    ((oc / (2 * torchPi / freqHigh) - lf) / (hf - lf) = 1 ∧
      scaleOneFreq sf lf hf oc freqHigh = .ok freqHigh) := by
  have hocne : oc ≠ 0 := ne_of_gt hoc
  have hlfne : lf ≠ 0 := ne_of_gt hlf
  have hhf : 0 < hf := lt_trans hlf hlh
  have hhfne : hf ≠ 0 := ne_of_gt hhf
  have hdiff : hf - lf ≠ 0 := sub_ne_zero.mpr (ne_of_gt hlh)
  have hthr := wavelen_thresholds hoc hlf hlh
  have hLowSelf : oc / (oc / lf) = lf := by field_simp
  have hHighSelf : oc / (oc / hf) = hf := by field_simp
  have hsmoothLow : (oc / (2 * torchPi / freqLow) - lf) / (hf - lf) = 0 := by
    rw [hwLow, hLowSelf, sub_self, zero_div]
  have hsmoothHigh : (oc / (2 * torchPi / freqHigh) - lf) / (hf - lf) = 1 := by
    rw [hwHigh, hHighSelf, div_self hdiff]
  have hA : ¬ (2 * torchPi / freqLow < oc / hf) := by
    rw [hwLow]
    exact not_lt.mpr (le_of_lt hthr)
  have hB : ¬ (oc / lf < 2 * torchPi / freqLow) := by
    rw [hwLow]
    exact lt_irrefl _
  have hC : ¬ (2 * torchPi / freqHigh < oc / hf) := by
    rw [hwHigh]
    exact lt_irrefl _
  have hD : ¬ (oc / lf < 2 * torchPi / freqHigh) := by
    rw [hwHigh]
    exact not_lt.mpr (le_of_lt hthr)
  refine ⟨⟨hsmoothLow, ?_⟩, ⟨hsmoothHigh, ?_⟩⟩
  · simp only [scaleOneFreq]
    rw [if_neg hA, if_neg hB, if_neg (wavelen_ne hoc hlf hlh), hsmoothLow]
    congr 1
    ring
  · simp only [scaleOneFreq]
    rw [if_neg hC, if_neg hD, if_neg (wavelen_ne hoc hlf hlh), hsmoothHigh]
    congr 1
    ring

/-- Witness for C5 with `(factor, low, high, old_context_len) =
(8, 1, 4, 2 * pi)`: frequency 1 sits exactly at the low-frequency
wavelength threshold and maps to `1 / 8`; frequency 4 sits exactly at
the high-frequency wavelength threshold and passes through. -/
theorem rope_scaling_boundary_continuity_witness :
    ((2 * torchPi / (2 * torchPi / 1) - 1) / (4 - 1) = 0 ∧
      scaleOneFreq 8 1 4 (2 * torchPi) 1 = .ok (1 / 8)) ∧
    ((2 * torchPi / (2 * torchPi / 4) - 1) / (4 - 1) = 1 ∧
      scaleOneFreq 8 1 4 (2 * torchPi) 4 = .ok 4) :=
  rope_scaling_boundary_continuity 8 1 4 (2 * torchPi) 1 4
    (by rw [torchPi]; norm_num) (by norm_num) (by norm_num) rfl rfl

/-- C7: with both encoder output and post tokens supplied, the decoder
input built by `ConcateFusion._get_decoder_input` is exactly the
pre-token embeddings, the MLP-projected encoder features and the
post-token embeddings concatenated in that order along the sequence
axis, so its sequence length is `len(pre) + encoder positions +
len(post)`; for 30, 576 and 20 that is 626. -/
theorem concate_fusion_decoder_input_concat {Tok Emb Feat : Type}
    (tokEmbeddings : Tok → Emb) (mmProjector : MultiModalProjector Feat Emb)
    (preTokens : List Tok) (encOut : List Feat) (postToks : List Tok) :
    getDecoderInput tokEmbeddings mmProjector preTokens (some encOut) (some postToks) =
      .ok (preTokens.map tokEmbeddings ++ encOut.map mmProjector.fwd ++
        postToks.map tokEmbeddings) ∧
    (preTokens.map tokEmbeddings ++ encOut.map mmProjector.fwd ++
        postToks.map tokEmbeddings).length =
      preTokens.length + encOut.length + postToks.length ∧
    (preTokens.length = 30 → encOut.length = 576 → postToks.length = 20 →
      (preTokens.map tokEmbeddings ++ encOut.map mmProjector.fwd ++
        postToks.map tokEmbeddings).length = 626) := by
  have hlen : (preTokens.map tokEmbeddings ++ encOut.map mmProjector.fwd ++
      postToks.map tokEmbeddings).length =
      preTokens.length + encOut.length + postToks.length := by
    simp [List.length_append, List.length_map, Nat.add_assoc]
  refine ⟨rfl, hlen, ?_⟩
  intro h1 h2 h3
  rw [hlen, h1, h2, h3]

/-- Witness for C7 at segment lengths 30, 576 and 20. -/
theorem concate_fusion_decoder_input_concat_witness :
    ((List.replicate 30 ()).map (fun _ => ()) ++
      (List.replicate 576 ()).map unitProjector.fwd ++
      (List.replicate 20 ()).map (fun _ => ())).length = 626 :=
  (concate_fusion_decoder_input_concat (fun _ => ()) unitProjector
    (List.replicate 30 ()) (List.replicate 576 ()) (List.replicate 20 ())).2.2
    (List.length_replicate 30 ()) (List.length_replicate 576 ())
    (List.length_replicate 20 ())

theorem foldlM_blockShape (d b n : ℕ) :
    ∀ (l : List AttentionState),
      l.foldlM (fun s _ => blockShape d s) ([b, n, d] : Shape) = some [b, n, d]
  | [] => rfl
  | _ :: l => by
    rw [List.foldlM_cons]
    simp only [blockShape, if_pos rfl]
    exact foldlM_blockShape d b n l

theorem forwardShape_hoisted {F : Type} (st : TransformerState F) (fr : F)
    (b s : ℕ) (ip : List ℕ)
    (hfr : st.freqsCis = some fr) (hemb : st.tokEmbeddings = false)
    (hout : st.hasOutputHead = true) :
    st.forwardShape [b, s, st.config.dim] ip = .ok [b, s, st.config.vocabSize] := by
  unfold TransformerState.forwardShape
  rw [hfr, hemb, hout]
  simp [foldlM_blockShape, outputHeadShape]

/-- C8 counterexample: the Llava prefill call (no `input_pos`) does not
return a bare logits tensor — at pre length 30, 576 encoder positions
and post length 20 it returns the pair `(626, logits)` with the logits
shaped `[1, 626, vocab]`, so no logits tensor is the returned value. -/
theorem llava_prefill_returns_pair_cex :
    concateFusionForwardShape llavaDecoderEx 30 (some 576) (some 20) none =
      .ok (.pairOut 626 [1, 626, 32064]) ∧
    ∀ t, concateFusionForwardShape llavaDecoderEx 30 (some 576) (some 20) none ≠
      .ok (.tensorOut t) := by
  have h1 : concateFusionForwardShape llavaDecoderEx 30 (some 576) (some 20) none =
      .ok (.pairOut 626 [1, 626, 32064]) := rfl
  refine ⟨h1, ?_⟩
  intro t h
  rw [h1] at h
  simp at h

/-- C8 amended: for the Llava variant, a prefill call of `forward`
(`input_pos` not supplied) on a cache-ready fused model (embedding
hoisted out of the decoder, output head owned) returns the PAIR
`(seq_len, logits)` — not a bare tensor — where `seq_len` is the
concatenated decoder-input length and the logits are shaped
`[1, seq_len, vocab]`. -/
theorem llava_prefill_pair_shape {F : Type} (decoder : TransformerState F)
    (fr : F) (tokensLen encLen postLen : ℕ)
    (hfr : decoder.freqsCis = some fr)
    (hemb : decoder.tokEmbeddings = false)
    (hout : decoder.hasOutputHead = true) :
    concateFusionForwardShape decoder tokensLen (some encLen) (some postLen) none =
      .ok (.pairOut (tokensLen + encLen + postLen)
        [1, tokensLen + encLen + postLen, decoder.config.vocabSize]) := by
  unfold concateFusionForwardShape
  simp only [decoderInputLen]
  rw [forwardShape_hoisted decoder fr 1 (tokensLen + encLen + postLen) _ hfr hemb hout]

/-- Witness for C8 amended at the concrete fused llava decoder and
segment lengths 30, 576, 20. -/
theorem llava_prefill_pair_shape_witness :
    concateFusionForwardShape llavaDecoderEx 30 (some 576) (some 20) none =
      .ok (.pairOut (30 + 576 + 20) [1, 30 + 576 + 20, 32064]) :=
  llava_prefill_pair_shape llavaDecoderEx () 30 576 20 rfl rfl rfl

theorem insertByLenDesc_perm (x : CfgName) (l : List CfgName) :
    (insertByLenDesc x l).Perm (x :: l) := by
  induction l with
  | nil => exact List.Perm.refl _
  | cons y ys ih =>
    unfold insertByLenDesc
    split
    · exact List.Perm.refl _
    · exact (ih.cons y).trans (List.Perm.swap x y ys)

theorem sortByLenDesc_perm (l : List CfgName) : (sortByLenDesc l).Perm l := by
  induction l with
  | nil => exact List.Perm.refl _
  | cons x xs ih =>
    have h1 : sortByLenDesc (x :: xs) = insertByLenDesc x (sortByLenDesc xs) := rfl
    rw [h1]
    exact (insertByLenDesc_perm x (sortByLenDesc xs)).trans (ih.cons x)

theorem insertByLenDesc_sorted {x : CfgName} {l : List CfgName}
    (h : List.Pairwise (fun a b => b.length ≤ a.length) l) :
    List.Pairwise (fun a b => b.length ≤ a.length) (insertByLenDesc x l) := by
  induction l with
  | nil => simp [insertByLenDesc]
  | cons y ys ih =>
    unfold insertByLenDesc
    split
    next hyx =>
      refine List.Pairwise.cons ?_ h
      intro z hz
      rcases List.mem_cons.mp hz with rfl | hz2
      · exact hyx
      · exact le_trans ((List.pairwise_cons.mp h).1 z hz2) hyx
    next hyx =>
      refine List.Pairwise.cons ?_ (ih (List.pairwise_cons.mp h).2)
      intro z hz
      have hz2 := (insertByLenDesc_perm x ys).mem_iff.mp hz
      rcases List.mem_cons.mp hz2 with rfl | hz3
      · exact le_of_not_le hyx
      · exact (List.pairwise_cons.mp h).1 z hz3

theorem sortByLenDesc_sorted (l : List CfgName) :
    List.Pairwise (fun a b => b.length ≤ a.length) (sortByLenDesc l) := by
  induction l with
  | nil => exact List.Pairwise.nil
  | cons x xs ih => exact insertByLenDesc_sorted ih

theorem sortByLenDesc_head_max {a : CfgName} {rest l : List CfgName}
    (hs : sortByLenDesc l = a :: rest) :
    a ∈ l ∧ ∀ c ∈ l, c.length ≤ a.length := by
  have hperm := sortByLenDesc_perm l
  rw [hs] at hperm
  constructor
  · exact hperm.subset (List.mem_cons_self a rest)
  · intro c hc
    have hc2 : c ∈ a :: rest := hperm.symm.subset hc
    rcases List.mem_cons.mp hc2 with rfl | hc3
    · exact le_refl _
    · have hsorted := sortByLenDesc_sorted l
      rw [hs] at hsorted
      exact (List.pairwise_cons.mp hsorted).1 c hc3

/-- C9: the fuzzy resolution of `ModelArgs.from_name` is deterministic —
whenever it returns a config it is a candidate of maximal length among
the substring matches (in particular the longest match when several
match); zero matches raise the unknown-name `ValueError`, and two
longest matches of equal length raise the ambiguity `AssertionError`. -/
theorem from_name_fuzzy_resolution (knownModelParams : List CfgName) (name : CfgName) :
    (fuzzyMatches knownModelParams name = [] →
      fromNameFuzzy knownModelParams name =
        .error (.valueError "Unknown model directory name")) ∧
    (∀ m, fromNameFuzzy knownModelParams name = .ok m →
      m ∈ fuzzyMatches knownModelParams name ∧
      ∀ c ∈ fuzzyMatches knownModelParams name, c.length ≤ m.length) ∧
    (∀ a b rest, sortByLenDesc (fuzzyMatches knownModelParams name) = a :: b :: rest →
      a.length = b.length →
      fromNameFuzzy knownModelParams name = .error .assertionError) := by
  refine ⟨?_, ?_, ?_⟩
  · intro h
    simp [fromNameFuzzy, h, sortByLenDesc]
  · intro m hok
    by_cases h1 : 1 < (fuzzyMatches knownModelParams name).length
    · unfold fromNameFuzzy at hok
      rw [if_pos h1] at hok
      have hlen := (sortByLenDesc_perm (fuzzyMatches knownModelParams name)).length_eq
      rcases hsort : sortByLenDesc (fuzzyMatches knownModelParams name) with
        _ | ⟨a, _ | ⟨b, rest⟩⟩
      · rw [hsort] at hlen
        simp at hlen
        omega
      · rw [hsort] at hlen
        simp at hlen
        omega
      · rw [hsort] at hok
        change (if a.length = b.length
          then (Except.error ModelError.assertionError : Except ModelError CfgName)
          else Except.ok a) = Except.ok m at hok
        by_cases hab : a.length = b.length
        · rw [if_pos hab] at hok
          exact absurd hok (by simp)
        · rw [if_neg hab] at hok
          have hma : m = a := by
            have := Except.ok.inj hok
            exact this.symm
          subst hma
          exact sortByLenDesc_head_max hsort
    · by_cases h0 : (fuzzyMatches knownModelParams name).length = 0
      · unfold fromNameFuzzy at hok
        rw [if_neg h1, if_pos h0] at hok
        exact absurd hok (by simp)
      · have hone : (fuzzyMatches knownModelParams name).length = 1 := by omega
        obtain ⟨m0, hm0⟩ := List.length_eq_one.mp hone
        unfold fromNameFuzzy at hok
        rw [if_neg h1, if_neg h0, hm0] at hok
        have hma : m = m0 := (Except.ok.inj hok).symm
        subst hma
        rw [hm0]
        exact ⟨List.mem_cons_self m [], by
          intro c hc
          rcases List.mem_cons.mp hc with rfl | hc2
          · exact le_refl _
          · exact absurd hc2 (List.not_mem_nil c)⟩
  · intro a b rest hs hab
    have hlen := (sortByLenDesc_perm (fuzzyMatches knownModelParams name)).length_eq
    rw [hs] at hlen
    have h1 : 1 < (fuzzyMatches knownModelParams name).length := by
      simp at hlen
      omega
    unfold fromNameFuzzy
    rw [if_pos h1, hs]
    change (if a.length = b.length
      then (Except.error ModelError.assertionError : Except ModelError CfgName)
      else Except.ok a) = Except.error ModelError.assertionError
    rw [if_pos hab]

/-- Witness for C9 at the specification example: candidates
`{"7B", "Mistral-7B"}` and lookup key `"Mistral-7B-v2"` resolve to the
longer match `"Mistral-7B"`. -/
theorem from_name_fuzzy_resolution_witness :
    "Mistral-7B".toList ∈ fuzzyMatches knownEx keyEx ∧
    ∀ c ∈ fuzzyMatches knownEx keyEx, c.length ≤ ("Mistral-7B".toList).length :=
  (from_name_fuzzy_resolution knownEx keyEx).2.1 "Mistral-7B".toList (by rfl)
